import Mathlib

/-!
Verification of the client.go module of the go-auth0 management client.

The development shallowly embeds the parts of `management/client.go` that the
specification's testable properties talk about:

* `ClientJWTConfiguration` with its custom `UnmarshalJSON` / `MarshalJSON`
  methods (the tolerant codec for the `lifetime_in_seconds` field), and
* `ClientManager.UpdateCredential` with its strip-to-expiry request body and
  its copy-back of server-returned fields.

JSON documents are modelled by the inductive `JSONValue`.  Go's
`encoding/json` decodes a JSON number stored into an `interface{}` as a
`float64`; this is modelled by `roundFloat64Int` (round to nearest, ties to
even, 53-bit significand), computed with exact `Nat` arithmetic.  `strconv.Atoi`
is modelled by `goAtoi` (optional sign, decimal digits only, 64-bit range
check).  Machine integers are modelled as `Int` with explicit range checks
where the code converts.
-/

/-- A JSON value, as exchanged on the wire.  Objects keep their fields in
order; Go's decoder processes object keys in textual order and, for duplicate
keys, the last occurrence wins, which the list fold below reproduces.
Numbers are kept exact (`Int`); every number this module ever emits comes from
a Go `int`, hence is integral and within the `int64` range. -/
inductive JSONValue where
  | jnum (n : Int)
  | jstr (s : String)
  | jbool (b : Bool)
  | jnull
  | jobj (fields : List (String × JSONValue))
  | jarr (elems : List JSONValue)

/-- The `ClientJWTConfiguration` struct of client.go.  Go pointer fields
(`*int`, `*bool`, `*map[string]string`, `*string`) become `Option`s; a Go map
is modelled as an association list. -/
structure ClientJWTConfiguration where
  LifetimeInSeconds : Option Int
  SecretEncoded : Option Bool
  Scopes : Option (List (String × String))
  Algorithm : Option String
deriving DecidableEq, Repr

/-- The Go zero value `ClientJWTConfiguration{}`: the fresh receiver that
`encoding/json` allocates before calling `UnmarshalJSON`. -/
def ClientJWTConfiguration.empty : ClientJWTConfiguration :=
  ⟨none, none, none, none⟩

/-- Errors surfaced by `ClientJWTConfiguration.UnmarshalJSON`:
`typeError` stands for an error returned by the structural `json.Unmarshal`
pass over the wrapper, and `malformedField f` for the
`fmt.Errorf("unexpected type for field lifetime_in_seconds")` value, which
carries the field name in its message. -/
inductive UnmarshalError where
  | typeError
  | malformedField (field : String)
deriving DecidableEq, Repr

/-- Floor of the base-2 logarithm, by fuelled halving.  `log2Aux f n` is the
exact floor logarithm whenever `n < 2 ^ f`. -/
def log2Aux : Nat → Nat → Nat
  | 0, _ => 0
  | f + 1, n => if n ≤ 1 then 0 else log2Aux f (n / 2) + 1

/-- Floor logarithm adequate for the whole `int64` range of a Go `int`
(`n < 2 ^ 64`), which covers every number marshalled by this module. -/
def log2floor (n : Nat) : Nat := log2Aux 64 n

/-- The nearest `float64` to a natural number, as a natural number:
round to nearest with a 53-bit significand, ties to even.  This is what
`strconv.ParseFloat` (and hence `encoding/json` decoding a number into an
`interface{}`) produces for an integral decimal literal in the `int64` range. -/
def roundFloat64Nat (n : Nat) : Nat :=
  let k := log2floor n
  if k ≤ 52 then n
  else
    let ulp := 2 ^ (k - 52)
    let q := n / ulp
    let r := n % ulp
    if 2 * r < ulp then q * ulp
    else if ulp < 2 * r then (q + 1) * ulp
    else if q % 2 = 0 then q * ulp else (q + 1) * ulp

/-- Extension of `roundFloat64Nat` to integers by sign symmetry (IEEE-754 rounding
is sign-symmetric). -/
def roundFloat64Int (n : Int) : Int :=
  if n < 0 then -(roundFloat64Nat (-n).toNat : Int) else (roundFloat64Nat n.toNat : Int)

/-- Go's conversion `int(f)` of an integral `float64` value `f` to the 64-bit
`int` type: exact within the `int64` range.  Out of range the Go spec leaves
the result implementation-defined; the common amd64/arm64 behaviour (saturate
to the minimum `int64`) is used, and no theorem below depends on that region. -/
def goInt64OfFloat (m : Int) : Int :=
  if -(2 ^ 63) ≤ m ∧ m < 2 ^ 63 then m else -(2 ^ 63)

/-- Digit accumulator for `goAtoi`: consumes decimal digits only. -/
def digitsValAux : List Char → Nat → Option Nat
  | [], acc => some acc
  | c :: cs, acc =>
    if '0' ≤ c ∧ c ≤ '9' then digitsValAux cs (acc * 10 + (c.toNat - '0'.toNat))
    else none

/-- Digit-string value; `none` on an empty digit string or a non-digit. -/
def parseDigits : List Char → Option Nat
  | [] => none
  | cs => digitsValAux cs 0

/-- Model of `strconv.Atoi` of Go (equivalently `strconv.ParseInt(s, 10, 0)` with
64-bit `int`): an optional single `+`/`-` sign followed by one or more decimal
digits, rejecting anything else and values outside the `int64` range.  The Go
function reports syntax and range failures as errors, all of which the calling
code treats alike, so the model returns `none` for every failure. -/
def goAtoi (s : String) : Option Int :=
  match s.data with
  | [] => none
  | c :: rest =>
    let signedDigits : Bool × List Char :=
      if c = '-' then (true, rest)
      else if c = '+' then (false, rest)
      else (false, c :: rest)
    match parseDigits signedDigits.2 with
    | none => none
    | some v =>
      let i : Int := if signedDigits.1 then -(v : Int) else (v : Int)
      if -(2 ^ 63) ≤ i ∧ i < 2 ^ 63 then some i else none

/-- State of the structural `json.Unmarshal` pass over the wrapper struct of
`UnmarshalJSON`: the receiver being filled in place, the raw
`lifetime_in_seconds` value captured into the wrapper's `interface{}` field
(`none` both when the key is absent and when its value is JSON `null`, which
Go leaves as a nil interface), and whether a decode error has occurred.  Go's
decoder records the first error and keeps decoding the remaining fields, which
the fold reproduces. -/
structure UnmarshalPass where
  cfg : ClientJWTConfiguration
  rawLifetime : Option JSONValue
  hasErr : Bool

/-- Decoding of one object entry into a `map[string]string`: every value must
be a JSON string. -/
def decodeStringMap : List (String × JSONValue) → Option (List (String × String))
  | [] => some []
  | (k, JSONValue.jstr s) :: rest =>
    (decodeStringMap rest).map (fun m => (k, s) :: m)
  | _ => none

/-- One step of the structural pass: how `json.Unmarshal` treats a single
object entry aimed at the wrapper struct.  The tags are `secret_encoded`
(`*bool`), `scopes` (`*map[string]string`), `alg` (`*string`) and
`lifetime_in_seconds` (`interface{}`); `LifetimeInSeconds` itself is tagged
`json:"-"` and is never touched by this pass.  A JSON `null` sets a pointer
field to nil; a mismatched type is a decode error; unknown keys are ignored. -/
def decodeField (st : UnmarshalPass) (kv : String × JSONValue) : UnmarshalPass :=
  match kv with
  | (k, v) =>
    if k = "secret_encoded" then
      match v with
      | JSONValue.jnull => { st with cfg := { st.cfg with SecretEncoded := none } }
      | JSONValue.jbool b => { st with cfg := { st.cfg with SecretEncoded := some b } }
      | _ => { st with hasErr := true }
    else if k = "scopes" then
      match v with
      | JSONValue.jnull => { st with cfg := { st.cfg with Scopes := none } }
      | JSONValue.jobj fs =>
        match decodeStringMap fs with
        | some m => { st with cfg := { st.cfg with Scopes := some m } }
        | none => { st with hasErr := true }
      | _ => { st with hasErr := true }
    else if k = "lifetime_in_seconds" then
      match v with
      | JSONValue.jnull => { st with rawLifetime := none }
      | _ => { st with rawLifetime := some v }
    else if k = "alg" then
      match v with
      | JSONValue.jnull => { st with cfg := { st.cfg with Algorithm := none } }
      | JSONValue.jstr s => { st with cfg := { st.cfg with Algorithm := some s } }
      | _ => { st with hasErr := true }
    else st

/-- Model of `ClientJWTConfiguration.UnmarshalJSON` of client.go.  The receiver `jc` is
wrapped (via the `clientJWTConfiguration` alias) together with a raw
`interface{}` field for `lifetime_in_seconds`; `json.Unmarshal` fills both in
place; then the raw value, when non-nil, is converted by a type switch:

* `float64` (a JSON number) - converted with `int(...)`;
* `string` - parsed with `strconv.Atoi`, a failure yielding the
  `malformedField` error;
* any other dynamic type - the `malformedField` error.

A top-level JSON `null` is a successful no-op for `json.Unmarshal`, and a
top-level non-object is a structural type error.  The function returns the
receiver as mutated so far together with the error, mirroring Go's in-place
mutation of `jc`. -/
def unmarshalJSON (jc : ClientJWTConfiguration) (v : JSONValue) :
    ClientJWTConfiguration × Option UnmarshalError :=
  match v with
  | JSONValue.jnull => (jc, none)
  | JSONValue.jobj fields =>
    let st := fields.foldl decodeField ⟨jc, none, false⟩
    if st.hasErr then (st.cfg, some UnmarshalError.typeError)
    else
      match st.rawLifetime with
      | none => (st.cfg, none)
      | some rv =>
        match rv with
        | JSONValue.jnum n =>
          ({ st.cfg with LifetimeInSeconds := some (goInt64OfFloat (roundFloat64Int n)) },
           none)
        | JSONValue.jstr s =>
          match goAtoi s with
          | some value => ({ st.cfg with LifetimeInSeconds := some value }, none)
          | none => (st.cfg, some (UnmarshalError.malformedField ("lifetime_in_seconds")))
        | _ => (st.cfg, some (UnmarshalError.malformedField ("lifetime_in_seconds")))
  | _ => (jc, some UnmarshalError.typeError)

/-- One optional field of the marshalled output: present fields become a
single key/value entry, absent ones are omitted (`omitempty` on a pointer or
interface field). -/
def optField (key : String) (v : Option JSONValue) : List (String × JSONValue) :=
  match v with
  | some x => [(key, x)]
  | none => []

/-- The entry list produced by `ClientJWTConfiguration.MarshalJSON`: the
embedded alias marshals `secret_encoded`, `scopes` and `alg` structurally in
declaration order, each with `omitempty`, and the wrapper appends
`lifetime_in_seconds` from the raw `interface{}` field, which holds the `*int`
`jc.LifetimeInSeconds` when that is non-nil and is omitted otherwise.  A Go
`int` marshals as an exact JSON number. -/
def marshalFields (jc : ClientJWTConfiguration) : List (String × JSONValue) :=
  optField ("secret_encoded") (jc.SecretEncoded.map JSONValue.jbool) ++
  optField ("scopes") (jc.Scopes.map (fun m =>
    JSONValue.jobj (m.map (fun q => (q.1, JSONValue.jstr q.2))))) ++
  optField ("alg") (jc.Algorithm.map JSONValue.jstr) ++
  optField ("lifetime_in_seconds") (jc.LifetimeInSeconds.map (fun n => JSONValue.jnum n))

/-- Model of `ClientJWTConfiguration.MarshalJSON` of client.go.  The Go method also
returns an error, which is always nil for this struct (no field can fail to
marshal), so the model returns the JSON value alone. -/
def marshalJSON (jc : ClientJWTConfiguration) : JSONValue :=
  JSONValue.jobj (marshalFields jc)

/-- The `Credential` struct of client.go, fields in declaration order.
`time.Time` values are opaque to the logic here and are modelled as integer
timestamps. -/
structure Credential where
  ID : Option String
  Name : Option String
  KeyID : Option String
  CredentialType : Option String
  PEM : Option String
  Algorithm : Option String
  ParseExpiryFromCert : Option Bool
  CreatedAt : Option Int
  UpdatedAt : Option Int
  ExpiresAt : Option Int
deriving DecidableEq, Repr

/-- The `credentialClone` built at the start of `ClientManager.UpdateCredential`:
`&Credential{ExpiresAt: credential.ExpiresAt}` - every field is the zero value
(nil) except `ExpiresAt`, because the API only accepts the `expires_at`
property.  This is the PATCH request body. -/
def updateCredentialRequestBody (credential : Credential) : Credential :=
  { ID := none, Name := none, KeyID := none, CredentialType := none,
    PEM := none, Algorithm := none, ParseExpiryFromCert := none,
    CreatedAt := none, UpdatedAt := none, ExpiresAt := credential.ExpiresAt }

/-- JSON decoding of one optional field into an existing record: a field
present on the wire overwrites, an absent field leaves the old value. -/
def mergeField {α : Type} (wire old : Option α) : Option α :=
  match wire with
  | some x => some x
  | none => old

/-- Modelled from the spec: `Management.Request` (declared outside this
module's source file) "sends the encoded body (for create/update) and decodes
the response body" into the same value.  Standard JSON decoding into an
existing record overwrites exactly the fields present in the response and
leaves absent fields as they were, so the server echo is a `Credential` whose
`some` fields are the ones present on the wire.  `applyRequestEcho body echo`
is the state of `body` after the response has been decoded into it. -/
def applyRequestEcho (body echo : Credential) : Credential :=
  { ID := mergeField echo.ID body.ID,
    Name := mergeField echo.Name body.Name,
    KeyID := mergeField echo.KeyID body.KeyID,
    CredentialType := mergeField echo.CredentialType body.CredentialType,
    PEM := mergeField echo.PEM body.PEM,
    Algorithm := mergeField echo.Algorithm body.Algorithm,
    ParseExpiryFromCert := mergeField echo.ParseExpiryFromCert body.ParseExpiryFromCert,
    CreatedAt := mergeField echo.CreatedAt body.CreatedAt,
    UpdatedAt := mergeField echo.UpdatedAt body.UpdatedAt,
    ExpiresAt := mergeField echo.ExpiresAt body.ExpiresAt }

/-- Model of `ClientManager.UpdateCredential` of client.go.  The outcome of the HTTP
exchange performed by `Management.Request` (not part of this source file) is
passed in: an error, or the server's partial echo of the credential.  On error
the error is returned and the caller's credential is untouched; on success the
clone - now holding the decoded response - has its ID, Name, CredentialType,
KeyID, Algorithm, CreatedAt, UpdatedAt and ExpiresAt copied back onto the
caller's credential ("PEM and ParseExpiryFromCert don't get returned").
The returned pair is the caller's credential after the call, with the
returned error. -/
def updateCredential (credential : Credential) (outcome : Except String Credential) :
    Credential × Option String :=
  let credentialClone := updateCredentialRequestBody credential
  match outcome with
  | Except.error e => (credential, some e)
  | Except.ok echo =>
    let clone := applyRequestEcho credentialClone echo
    ({ credential with
        ID := clone.ID,
        Name := clone.Name,
        CredentialType := clone.CredentialType,
        KeyID := clone.KeyID,
        Algorithm := clone.Algorithm,
        CreatedAt := clone.CreatedAt,
        UpdatedAt := clone.UpdatedAt,
        ExpiresAt := clone.ExpiresAt },
     none)

/-! ## Theorems -/

/-- Claim C2: decoding `{"lifetime_in_seconds": 3600}` succeeds with
`LifetimeInSeconds = 3600`, decoding `{"lifetime_in_seconds": "3600"}`
succeeds as well, and the two in-memory results are identical. -/
theorem lifetime_numeric_and_string_decode_agree :
    unmarshalJSON ClientJWTConfiguration.empty
        (JSONValue.jobj [("lifetime_in_seconds", JSONValue.jnum 3600)])
      = ({ ClientJWTConfiguration.empty with LifetimeInSeconds := some 3600 }, none)
    ∧ unmarshalJSON ClientJWTConfiguration.empty
        (JSONValue.jobj [("lifetime_in_seconds", JSONValue.jstr ("3600"))])
      = ({ ClientJWTConfiguration.empty with LifetimeInSeconds := some 3600 }, none) := by
  exact ⟨rfl, rfl⟩

/-- Claim C6, counterexample: decoding `{"lifetime_in_seconds": null}` does
not fail - `json.Unmarshal` leaves the wrapper's `interface{}` field nil for a
JSON `null`, so the type switch is skipped and the decode succeeds with the
field unset, contradicting the claimed `MalformedFieldError`. -/
theorem lifetime_null_decode_no_error :
    unmarshalJSON ClientJWTConfiguration.empty
        (JSONValue.jobj [("lifetime_in_seconds", JSONValue.jnull)])
      = (ClientJWTConfiguration.empty, none) := rfl

/-- Claim C6, amended: decoding `{"lifetime_in_seconds": null}` succeeds with
`LifetimeInSeconds` unset (a JSON `null` is treated exactly like an absent
key), while the genuinely unsupported JSON types for the field - boolean,
object and array - are rejected with the `MalformedFieldError` naming the
field. -/
theorem lifetime_null_treated_as_absent :
    unmarshalJSON ClientJWTConfiguration.empty
        (JSONValue.jobj [("lifetime_in_seconds", JSONValue.jnull)])
      = (ClientJWTConfiguration.empty, none)
    ∧ (∀ b : Bool,
        unmarshalJSON ClientJWTConfiguration.empty
            (JSONValue.jobj [("lifetime_in_seconds", JSONValue.jbool b)])
          = (ClientJWTConfiguration.empty,
             some (UnmarshalError.malformedField ("lifetime_in_seconds"))))
    ∧ (∀ fs : List (String × JSONValue),
        unmarshalJSON ClientJWTConfiguration.empty
            (JSONValue.jobj [("lifetime_in_seconds", JSONValue.jobj fs)])
          = (ClientJWTConfiguration.empty,
             some (UnmarshalError.malformedField ("lifetime_in_seconds"))))
    ∧ (∀ xs : List JSONValue,
        unmarshalJSON ClientJWTConfiguration.empty
            (JSONValue.jobj [("lifetime_in_seconds", JSONValue.jarr xs)])
          = (ClientJWTConfiguration.empty,
             some (UnmarshalError.malformedField ("lifetime_in_seconds")))) := by
  exact ⟨rfl, fun b => rfl, fun fs => rfl, fun xs => rfl⟩

/-- Claim C10: `UnmarshalJSON` is not atomic on failure.  For any receiver and
any `secret_encoded`, `scopes` and `alg` values, an object whose
`lifetime_in_seconds` is a boolean makes the decode return the
`MalformedFieldError`, yet the returned receiver already carries the decoded
`SecretEncoded`, `Scopes` and `Algorithm` values (its `LifetimeInSeconds` is
whatever it was before). -/
theorem unmarshal_partial_mutation_on_error
    (jc0 : ClientJWTConfiguration) (se : Bool) (al : String) (b : Bool) :
    unmarshalJSON jc0
        (JSONValue.jobj
          [("secret_encoded", JSONValue.jbool se),
           ("scopes", JSONValue.jobj [("read", JSONValue.jstr ("ok"))]),
           ("alg", JSONValue.jstr al),
           ("lifetime_in_seconds", JSONValue.jbool b)])
      = ({ jc0 with
            SecretEncoded := some se
            Scopes := some [("read", "ok")]
            Algorithm := some al },
         some (UnmarshalError.malformedField ("lifetime_in_seconds"))) := rfl

/-- Claim C5: decoding fails with the `MalformedFieldError` naming
`lifetime_in_seconds` whenever the field's raw JSON value is a string that
`strconv.Atoi` cannot parse as a base-10 integer - in particular
`"not-a-number"` - or a JSON boolean - in particular `true`; in neither case
does decoding succeed. -/
theorem lifetime_malformed_rejected :
    unmarshalJSON ClientJWTConfiguration.empty
        (JSONValue.jobj [("lifetime_in_seconds", JSONValue.jstr ("not-a-number"))])
      = (ClientJWTConfiguration.empty,
         some (UnmarshalError.malformedField ("lifetime_in_seconds")))
    ∧ unmarshalJSON ClientJWTConfiguration.empty
        (JSONValue.jobj [("lifetime_in_seconds", JSONValue.jbool true)])
      = (ClientJWTConfiguration.empty,
         some (UnmarshalError.malformedField ("lifetime_in_seconds")))
    ∧ (∀ s : String, goAtoi s = none →
        unmarshalJSON ClientJWTConfiguration.empty
            (JSONValue.jobj [("lifetime_in_seconds", JSONValue.jstr s)])
          = (ClientJWTConfiguration.empty,
             some (UnmarshalError.malformedField ("lifetime_in_seconds"))))
    ∧ (∀ b : Bool,
        unmarshalJSON ClientJWTConfiguration.empty
            (JSONValue.jobj [("lifetime_in_seconds", JSONValue.jbool b)])
          = (ClientJWTConfiguration.empty,
             some (UnmarshalError.malformedField ("lifetime_in_seconds")))) := by
  refine ⟨by decide, rfl, ?_, fun b => rfl⟩
  intro s hs
  have hred : unmarshalJSON ClientJWTConfiguration.empty
      (JSONValue.jobj [("lifetime_in_seconds", JSONValue.jstr s)])
      = (match goAtoi s with
         | some value =>
            ({ ClientJWTConfiguration.empty with LifetimeInSeconds := some value },
             (none : Option UnmarshalError))
         | none =>
            (ClientJWTConfiguration.empty,
             some (UnmarshalError.malformedField ("lifetime_in_seconds")))) := rfl
  rw [hred, hs]

/-- Claim C5, witness: the universally quantified string case holds at the
concrete malformed input `"not-a-number"`. -/
theorem lifetime_malformed_rejected_witness :
    unmarshalJSON ClientJWTConfiguration.empty
        (JSONValue.jobj [("lifetime_in_seconds", JSONValue.jstr ("not-a-number"))])
      = (ClientJWTConfiguration.empty,
         some (UnmarshalError.malformedField ("lifetime_in_seconds"))) :=
  lifetime_malformed_rejected.2.2.1 ("not-a-number") (by decide)

/-- Claim C8: the PATCH body sent by `UpdateCredential` keeps only the
`ExpiresAt` field of the input credential; every other field is stripped
(the clone starts from the zero value). -/
theorem updateCredential_body_only_expiresAt (c : Credential) :
    (updateCredentialRequestBody c).ExpiresAt = c.ExpiresAt
    ∧ (updateCredentialRequestBody c).ID = none
    ∧ (updateCredentialRequestBody c).Name = none
    ∧ (updateCredentialRequestBody c).KeyID = none
    ∧ (updateCredentialRequestBody c).CredentialType = none
    ∧ (updateCredentialRequestBody c).PEM = none
    ∧ (updateCredentialRequestBody c).Algorithm = none
    ∧ (updateCredentialRequestBody c).ParseExpiryFromCert = none
    ∧ (updateCredentialRequestBody c).CreatedAt = none
    ∧ (updateCredentialRequestBody c).UpdatedAt = none := by
  exact ⟨rfl, rfl, rfl, rfl, rfl, rfl, rfl, rfl, rfl, rfl⟩

/-- Claim C9: when the PATCH request fails, `UpdateCredential` returns that
error and the caller's credential is returned entirely unchanged - the
copy-back of server fields happens only on success. -/
theorem updateCredential_error_leaves_unchanged (c : Credential) (e : String) :
    updateCredential c (Except.error e) = (c, some e) := rfl


/-- A structural-pass step on any key other than `lifetime_in_seconds` never
touches the receiver's `LifetimeInSeconds` field nor the captured raw value. -/
theorem decodeField_preserves (st : UnmarshalPass) (k : String) (v : JSONValue)
    (hk : k ≠ "lifetime_in_seconds") :
    (decodeField st (k, v)).cfg.LifetimeInSeconds = st.cfg.LifetimeInSeconds
    ∧ (decodeField st (k, v)).rawLifetime = st.rawLifetime := by
  unfold decodeField
  by_cases h1 : k = "secret_encoded"
  · simp only [h1, if_pos]
    cases v <;> simp
  by_cases h2 : k = "scopes"
  · simp only [h1, h2, ite_true, ite_false]
    cases v with
    | jnum n => simp
    | jstr s => simp
    | jbool b => simp
    | jnull => simp
    | jobj fs => cases hsm : decodeStringMap fs <;> simp [hsm]
    | jarr xs => simp
  by_cases h3 : k = "alg"
  · simp only [h1, h2, h3, hk, ite_true, ite_false]
    cases v <;> simp
  · simp only [h1, h2, h3, hk, ite_true, ite_false]
    constructor <;> trivial

/-- Folding the structural pass over fields none of which is keyed
`lifetime_in_seconds` leaves both the `LifetimeInSeconds` field and the
captured raw value untouched. -/
theorem foldl_no_lifetime (fields : List (String × JSONValue)) :
    ∀ st : UnmarshalPass, (∀ p ∈ fields, p.1 ≠ "lifetime_in_seconds") →
      (fields.foldl decodeField st).cfg.LifetimeInSeconds = st.cfg.LifetimeInSeconds
      ∧ (fields.foldl decodeField st).rawLifetime = st.rawLifetime := by
  induction fields with
  | nil => intro st _; exact ⟨rfl, rfl⟩
  | cons p rest ih =>
    intro st h
    have hp : p.1 ≠ "lifetime_in_seconds" := h p (List.mem_cons_self p rest)
    have hd := decodeField_preserves st p.1 p.2 hp
    have hrest := ih (decodeField st p) (fun q hq => h q (List.mem_cons_of_mem p hq))
    refine ⟨?_, ?_⟩
    · exact (List.foldl_cons (f := decodeField) .. ▸ hrest.1).trans hd.1
    · exact (List.foldl_cons (f := decodeField) .. ▸ hrest.2).trans hd.2

/-- When the structural pass over an object has captured no raw
`lifetime_in_seconds` value, `UnmarshalJSON` returns the receiver as the pass
left it, with a type error exactly when the pass recorded one. -/
theorem unmarshal_rawNone (jc : ClientJWTConfiguration)
    (fields : List (String × JSONValue))
    (h : (fields.foldl decodeField ⟨jc, none, false⟩).rawLifetime = none) :
    unmarshalJSON jc (JSONValue.jobj fields)
      = ((fields.foldl decodeField ⟨jc, none, false⟩).cfg,
         if (fields.foldl decodeField ⟨jc, none, false⟩).hasErr
         then some UnmarshalError.typeError else none) := by
  simp only [unmarshalJSON, h]
  cases hE : (fields.foldl decodeField ⟨jc, none, false⟩).hasErr <;> simp [hE]

/-- Every element of `optField k v` has key `k`. -/
theorem optField_key {k : String} {v : Option JSONValue} {p : String × JSONValue}
    (h : p ∈ optField k v) : p.1 = k := by
  cases v with
  | none => simp [optField] at h
  | some x =>
    simp only [optField, List.mem_singleton] at h
    rw [h]

/-- Claim C4: decoding an object without the `lifetime_in_seconds` key leaves
`LifetimeInSeconds` unset and never produces the field's `MalformedFieldError`
(and it succeeds outright whenever the structural pass raises no error - in
particular on the empty object); encoding a configuration whose
`LifetimeInSeconds` is unset omits the key entirely. -/
theorem lifetime_absent_roundtrip :
    (∀ fields : List (String × JSONValue),
      (∀ p ∈ fields, p.1 ≠ "lifetime_in_seconds") →
        (unmarshalJSON ClientJWTConfiguration.empty
            (JSONValue.jobj fields)).1.LifetimeInSeconds = none
        ∧ (unmarshalJSON ClientJWTConfiguration.empty (JSONValue.jobj fields)).2
            ≠ some (UnmarshalError.malformedField ("lifetime_in_seconds"))
        ∧ ((fields.foldl decodeField
              ⟨ClientJWTConfiguration.empty, none, false⟩).hasErr = false →
            (unmarshalJSON ClientJWTConfiguration.empty (JSONValue.jobj fields)).2
              = none))
    ∧ unmarshalJSON ClientJWTConfiguration.empty (JSONValue.jobj [])
        = (ClientJWTConfiguration.empty, none)
    ∧ (∀ (se : Option Bool) (sc : Option (List (String × String)))
          (al : Option String) (p : String × JSONValue),
        p ∈ marshalFields ⟨none, se, sc, al⟩ → p.1 ≠ "lifetime_in_seconds") := by
  refine ⟨?_, rfl, ?_⟩
  · intro fields hkeys
    have hinv := foldl_no_lifetime fields
      ⟨ClientJWTConfiguration.empty, none, false⟩ hkeys
    rw [unmarshal_rawNone ClientJWTConfiguration.empty fields hinv.2]
    refine ⟨hinv.1, ?_, ?_⟩
    · cases hE : (fields.foldl decodeField
          ⟨ClientJWTConfiguration.empty, none, false⟩).hasErr <;> simp [hE]
    · intro h0
      simp [h0]
  · intro se sc al p hp
    simp only [marshalFields] at hp
    rcases List.mem_append.mp hp with h12 | h4
    · rcases List.mem_append.mp h12 with h12a | h3
      · rcases List.mem_append.mp h12a with h1 | h2
        · rw [optField_key h1]; decide
        · rw [optField_key h2]; decide
      · rw [optField_key h3]; decide
    · simp [optField] at h4

/-- Claim C4, witness: the decode part holds at the concrete input
`{"alg": "RS256"}` and the encode part at a concrete configuration with
`Algorithm` set and `LifetimeInSeconds` unset. -/
theorem lifetime_absent_roundtrip_witness :
    (unmarshalJSON ClientJWTConfiguration.empty
        (JSONValue.jobj [("alg", JSONValue.jstr ("RS256"))])).1.LifetimeInSeconds = none
    ∧ ("lifetime_in_seconds", JSONValue.jstr ("3600"))
        ∉ marshalFields ⟨none, none, none, some ("RS256")⟩ :=
  ⟨(lifetime_absent_roundtrip.1 [("alg", JSONValue.jstr ("RS256"))] (by decide)).1,
   fun hmem =>
     lifetime_absent_roundtrip.2.2 none none (some ("RS256"))
       ("lifetime_in_seconds", JSONValue.jstr ("3600")) hmem rfl⟩

/-- The fuelled floor logarithm respects upper bounds: a number below
`2 ^ (j + 1)` has floor logarithm at most `j`, whatever the fuel. -/
theorem log2Aux_le : ∀ (f n j : Nat), n < 2 ^ (j + 1) → log2Aux f n ≤ j := by
  intro f
  induction f with
  | zero =>
    intro n j _
    simp [log2Aux]
  | succ f ih =>
    intro n j h
    by_cases hn : n ≤ 1
    · simp [log2Aux, hn]
    · have h2 : 2 ≤ n := by omega
      have hj : 1 ≤ j := by
        by_contra hj0
        have : j = 0 := by omega
        subst this
        norm_num at h
        omega
      obtain ⟨j1, rfl⟩ : ∃ j1, j = j1 + 1 := ⟨j - 1, by omega⟩
      have hdiv : n / 2 < 2 ^ (j1 + 1) := by
        have hm : n < 2 ^ (j1 + 1) * 2 := by
          rw [← pow_succ]
          exact h
        exact Nat.div_lt_of_lt_mul (by omega)
      have hrec := ih (n / 2) j1 hdiv
      simp only [log2Aux, hn, ite_false]
      omega

/-- Every natural number up to `2 ^ 53` is exactly representable as a
`float64`, so the rounding of the decode path is the identity there. -/
theorem roundFloat64Nat_of_le (n : Nat) (h : n ≤ 2 ^ 53) : roundFloat64Nat n = n := by
  rcases Nat.lt_or_ge n (2 ^ 53) with hlt | hge
  · have hk : log2floor n ≤ 52 := log2Aux_le 64 n 52 hlt
    simp [roundFloat64Nat, hk]
  · have heq : n = 2 ^ 53 := by omega
    subst heq
    decide

/-- On a natural-number input the integer rounding function agrees with the
natural-number one. -/
theorem roundFloat64Int_natCast (n : Nat) :
    roundFloat64Int (n : Int) = (roundFloat64Nat n : Int) := by
  have hnonneg : ¬((n : Int) < 0) := by
    simp
  simp [roundFloat64Int, hnonneg]

/-- Claim C1, counterexample: the round-trip is lossy at
`n = 2 ^ 53 + 1 = 9007199254740993`.  `MarshalJSON` writes the exact number,
but decoding goes through Go's `interface{}` representation of JSON numbers -
a `float64` - and `strconv.ParseFloat` rounds the value to the nearest even
53-bit significand, `9007199254740992`, so the decoded field differs from the
encoded one. -/
theorem lifetime_roundtrip_fails_above_2pow53 :
    (unmarshalJSON ClientJWTConfiguration.empty
        (marshalJSON { ClientJWTConfiguration.empty with
            LifetimeInSeconds := some 9007199254740993 })).1.LifetimeInSeconds
      = some 9007199254740992
    ∧ (unmarshalJSON ClientJWTConfiguration.empty
        (marshalJSON { ClientJWTConfiguration.empty with
            LifetimeInSeconds := some 9007199254740993 })).1.LifetimeInSeconds
      ≠ some 9007199254740993 := by
  constructor
  · decide
  · decide

/-- Claim C1, amended: for every integer `0 ≤ n ≤ 2 ^ 53` (the range in which
a `float64` represents every integer exactly), encoding a configuration whose
`LifetimeInSeconds` is `n` and decoding the result restores exactly `n`, with
no error and all other fields untouched. -/
theorem lifetime_roundtrip_upto_2pow53 (n : Nat) (h : n ≤ 2 ^ 53) :
    unmarshalJSON ClientJWTConfiguration.empty
        (marshalJSON { ClientJWTConfiguration.empty with
            LifetimeInSeconds := some (n : Int) })
      = ({ ClientJWTConfiguration.empty with LifetimeInSeconds := some (n : Int) },
         none) := by
  have hred : unmarshalJSON ClientJWTConfiguration.empty
      (marshalJSON { ClientJWTConfiguration.empty with
          LifetimeInSeconds := some (n : Int) })
      = ({ ClientJWTConfiguration.empty with
            LifetimeInSeconds := some (goInt64OfFloat (roundFloat64Int (n : Int))) },
         none) := rfl
  rw [hred, roundFloat64Int_natCast, roundFloat64Nat_of_le n h]
  have hn53 : (n : Int) ≤ 2 ^ 53 := by exact_mod_cast h
  have hrange : goInt64OfFloat (n : Int) = (n : Int) := by
    have hcond : -(2 ^ 63 : Int) ≤ (n : Int) ∧ (n : Int) < 2 ^ 63 := by
      constructor
      · calc -(2 ^ 63 : Int) ≤ 0 := by norm_num
          _ ≤ (n : Int) := Int.natCast_nonneg n
      · calc (n : Int) ≤ (2 ^ 53 : Int) := hn53
          _ < 2 ^ 63 := by norm_num
    unfold goInt64OfFloat
    rw [if_pos hcond]
  rw [hrange]

/-- Claim C1, witness: the amended round-trip at the concrete value 3600. -/
theorem lifetime_roundtrip_upto_2pow53_witness :
    unmarshalJSON ClientJWTConfiguration.empty
        (marshalJSON { ClientJWTConfiguration.empty with
            LifetimeInSeconds := some ((3600 : Nat) : Int) })
      = ({ ClientJWTConfiguration.empty with
            LifetimeInSeconds := some ((3600 : Nat) : Int) },
         none) :=
  lifetime_roundtrip_upto_2pow53 3600 (by norm_num)

/-- Claim C3: `MarshalJSON` emits `lifetime_in_seconds` (when present) as a
JSON number and never as a JSON string - in particular a configuration decoded
from the legacy string wire form re-encodes to the canonical numeric form. -/
theorem lifetime_encode_always_numeric :
    (∀ (jc : ClientJWTConfiguration) (p : String × JSONValue),
        p ∈ marshalFields jc → p.1 = "lifetime_in_seconds" →
        ∃ n : Int, p.2 = JSONValue.jnum n)
    ∧ (∀ (jc0 : ClientJWTConfiguration) (s : String) (n : Int), goAtoi s = some n →
        unmarshalJSON jc0
            (JSONValue.jobj [("lifetime_in_seconds", JSONValue.jstr s)])
          = ({ jc0 with LifetimeInSeconds := some n }, none)
        ∧ ("lifetime_in_seconds", JSONValue.jnum n)
            ∈ marshalFields { jc0 with LifetimeInSeconds := some n }) := by
  constructor
  · intro jc p hmem hkey
    simp only [marshalFields] at hmem
    rcases List.mem_append.mp hmem with h12 | h4
    · rcases List.mem_append.mp h12 with h12a | h3
      · rcases List.mem_append.mp h12a with h1 | h2
        · exact absurd ((optField_key h1).symm.trans hkey) (by decide)
        · exact absurd ((optField_key h2).symm.trans hkey) (by decide)
      · exact absurd ((optField_key h3).symm.trans hkey) (by decide)
    · cases hL : jc.LifetimeInSeconds with
      | none =>
        rw [hL] at h4
        simp [optField] at h4
      | some m =>
        rw [hL] at h4
        simp [optField] at h4
        exact ⟨m, by rw [h4]⟩
  · intro jc0 s n hs
    have hred : unmarshalJSON jc0
        (JSONValue.jobj [("lifetime_in_seconds", JSONValue.jstr s)])
        = (match goAtoi s with
           | some value =>
              ({ jc0 with LifetimeInSeconds := some value },
               (none : Option UnmarshalError))
           | none =>
              (jc0, some (UnmarshalError.malformedField ("lifetime_in_seconds")))) := rfl
    refine ⟨by rw [hred, hs], ?_⟩
    simp [marshalFields, optField]

/-- Claim C3, witness: decoding the string form `"3600"` and re-encoding
produces the numeric entry, at the concrete configuration. -/
theorem lifetime_encode_always_numeric_witness :
    unmarshalJSON ClientJWTConfiguration.empty
        (JSONValue.jobj [("lifetime_in_seconds", JSONValue.jstr ("3600"))])
      = ({ ClientJWTConfiguration.empty with LifetimeInSeconds := some 3600 }, none)
    ∧ ∃ n : Int,
        (("lifetime_in_seconds", JSONValue.jnum 3600) : String × JSONValue).2
          = JSONValue.jnum n :=
  ⟨(lifetime_encode_always_numeric.2 ClientJWTConfiguration.empty ("3600") 3600
      (by decide)).1,
   lifetime_encode_always_numeric.1
     { ClientJWTConfiguration.empty with LifetimeInSeconds := some 3600 }
     ("lifetime_in_seconds", JSONValue.jnum 3600)
     (by simp [marshalFields, optField, ClientJWTConfiguration.empty]) rfl⟩

/-- Claim C7: on success, `UpdateCredential` overwrites the caller's ID, Name,
CredentialType, KeyID, Algorithm, CreatedAt, UpdatedAt and ExpiresAt with the
server-returned values, in place and without a second fetch, while PEM and
ParseExpiryFromCert keep their original values (the server never echoes
them and the copy-back skips them). -/
theorem updateCredential_refreshes_in_place
    (c echo : Credential) (i nm kid ct alg : String) (ca ua ea : Int)
    (hID : echo.ID = some i) (hName : echo.Name = some nm)
    (hKID : echo.KeyID = some kid) (hCT : echo.CredentialType = some ct)
    (hAlg : echo.Algorithm = some alg) (hCA : echo.CreatedAt = some ca)
    (hUA : echo.UpdatedAt = some ua) (hEA : echo.ExpiresAt = some ea) :
    updateCredential c (Except.ok echo)
      = ({ c with
            ID := some i
            Name := some nm
            KeyID := some kid
            CredentialType := some ct
            Algorithm := some alg
            CreatedAt := some ca
            UpdatedAt := some ua
            ExpiresAt := some ea },
         none)
    ∧ (updateCredential c (Except.ok echo)).1.PEM = c.PEM
    ∧ (updateCredential c (Except.ok echo)).1.ParseExpiryFromCert
        = c.ParseExpiryFromCert := by
  have h1 : updateCredential c (Except.ok echo)
      = ({ c with
            ID := some i
            Name := some nm
            KeyID := some kid
            CredentialType := some ct
            Algorithm := some alg
            CreatedAt := some ca
            UpdatedAt := some ua
            ExpiresAt := some ea },
         none) := by
    simp [updateCredential, applyRequestEcho, mergeField, updateCredentialRequestBody,
      hID, hName, hKID, hCT, hAlg, hCA, hUA, hEA]
  exact ⟨h1, by rw [h1], by rw [h1]⟩

/-- Claim C7, witness: the refresh at a concrete credential whose PEM is set
and a concrete partial server echo that omits PEM. -/
theorem updateCredential_refreshes_in_place_witness :
    updateCredential
        ⟨some ("old-id"), some ("old-name"), some ("old-kid"), some ("old-type"),
         some ("OLD PEM"), some ("RS256"), some true, some 1, some 2, some 3⟩
        (Except.ok ⟨some ("new-id"), some ("new-name"), some ("new-kid"),
         some ("new-type"), none, some ("PS256"), none, some 10, some 20, some 30⟩)
      = ({ (⟨some ("old-id"), some ("old-name"), some ("old-kid"), some ("old-type"),
            some ("OLD PEM"), some ("RS256"), some true, some 1, some 2, some 3⟩ :
            Credential) with
            ID := some ("new-id")
            Name := some ("new-name")
            KeyID := some ("new-kid")
            CredentialType := some ("new-type")
            Algorithm := some ("PS256")
            CreatedAt := some 10
            UpdatedAt := some 20
            ExpiresAt := some 30 },
         none)
    ∧ (updateCredential
        ⟨some ("old-id"), some ("old-name"), some ("old-kid"), some ("old-type"),
         some ("OLD PEM"), some ("RS256"), some true, some 1, some 2, some 3⟩
        (Except.ok ⟨some ("new-id"), some ("new-name"), some ("new-kid"),
         some ("new-type"), none, some ("PS256"), none, some 10, some 20, some 30⟩)).1.PEM
        = some ("OLD PEM")
    ∧ (updateCredential
        ⟨some ("old-id"), some ("old-name"), some ("old-kid"), some ("old-type"),
         some ("OLD PEM"), some ("RS256"), some true, some 1, some 2, some 3⟩
        (Except.ok ⟨some ("new-id"), some ("new-name"), some ("new-kid"),
         some ("new-type"), none, some ("PS256"), none, some 10, some 20, some 30⟩)).1.ParseExpiryFromCert
        = some true :=
  updateCredential_refreshes_in_place
    ⟨some ("old-id"), some ("old-name"), some ("old-kid"), some ("old-type"),
     some ("OLD PEM"), some ("RS256"), some true, some 1, some 2, some 3⟩
    ⟨some ("new-id"), some ("new-name"), some ("new-kid"), some ("new-type"),
     none, some ("PS256"), none, some 10, some 20, some 30⟩
    ("new-id") ("new-name") ("new-kid") ("new-type") ("PS256") 10 20 30
    rfl rfl rfl rfl rfl rfl rfl rfl
